import Mathlib

/-!
# Water-tank telemetry service: shallow embedding and verification

This file embeds the core of the water-tank telemetry service (FastAPI
handlers in `app/routes/channels.py` and `app/routes/data.py`, the CoAP
resources in `coap_server.py`, and the MQTT handler `save_mqtt_data` in
`main.py`) as executable Lean definitions, and proves or refutes the
specification's claims about them.

Modelling conventions:
* JSON scalars are `JVal`; Python `float(...)` is `pyFloat` (numbers are
  modelled by `ℚ`; the special float strings `inf`/`nan` and digit-group
  underscores are outside the `ℚ` value domain and are not exercised by
  any property below).
* A Mongo document is a flat association list `Doc` with Python-dict
  assignment semantics (`Doc.set` overwrites in place, else appends);
  this keeps the metadata keys `tank_id` / `timestamp` and the data
  fields in one namespace, exactly as in the source.
* Timestamps are abstract instants `ℕ`; each handler takes the current
  instant `now` as a parameter, and random values (API keys, UUIDs) are
  likewise parameters.
* Each handler is a pure function from the database state `DB` (the two
  collections `channels` and `data`) to `Except ApiError (DB × ...)`;
  an `.error` result carries no new state, mirroring the source where a
  raised `HTTPException` / error CoAP response aborts before any insert.
-/

/-- A JSON scalar value as carried in a field bag or a stored document. -/
inductive JVal where
  | num (q : ℚ)
  | str (s : String)
  | bool (b : Bool)
  | null
deriving DecidableEq, Repr

/-- Numeric value of a digit list, most significant first. -/
def digitsVal (cs : List Char) : ℕ :=
  cs.foldl (fun n c => 10 * n + (c.toNat - Char.toNat '0')) 0

/-- An optional leading sign, as accepted by Python float literals. -/
def parseSign : List Char → ℤ × List Char
  | '+' :: cs => (1, cs)
  | '-' :: cs => (-1, cs)
  | cs => (1, cs)

/-- ASCII whitespace as stripped by Python `float` before parsing. -/
def isPySpace (c : Char) : Bool :=
  c = ' ' || c = '\t' || c = '\n' || c = '\r' || c = '\x0b' || c = '\x0c'

/-- Strip surrounding whitespace from a character list. -/
def trimChars (cs : List Char) : List Char :=
  ((cs.dropWhile isPySpace).reverse.dropWhile isPySpace).reverse

/-- The exponent part of a float literal: an optionally signed non-empty
digit run ending the string. -/
def parseExp (mant : ℚ) (cs : List Char) : Option ℚ :=
  let (esgn, cs) := parseSign cs
  let ed := cs.takeWhile Char.isDigit
  let rest := cs.dropWhile Char.isDigit
  if ed.isEmpty || !rest.isEmpty then none
  else some (mant * (10 : ℚ) ^ (esgn * (digitsVal ed : ℤ)))

/-- Python `float(s)` on a string: optional surrounding whitespace, an
optional sign, a decimal literal with optional fractional part (at least
one digit overall), and an optional exponent. Returns `none` where
Python raises `ValueError`. -/
def parseFloatStr (s : String) : Option ℚ :=
  let cs := trimChars s.data
  let (sgn, cs) := parseSign cs
  let ip := cs.takeWhile Char.isDigit
  let cs := cs.dropWhile Char.isDigit
  let (fp, cs) :=
    match cs with
    | '.' :: rest => (rest.takeWhile Char.isDigit, rest.dropWhile Char.isDigit)
    | _ => (([] : List Char), cs)
  if ip.isEmpty && fp.isEmpty then none
  else
    let mant : ℚ := (sgn * (digitsVal (ip ++ fp) : ℤ) : ℤ) / ((10 : ℚ) ^ fp.length)
    match cs with
    | [] => some mant
    | 'e' :: rest => parseExp mant rest
    | 'E' :: rest => parseExp mant rest
    | _ => none

/-- Python `float(value)` on a JSON scalar: numbers pass through, bools
are the ints 1/0, strings are parsed, `None` raises `TypeError`
(`none`). -/
def pyFloat : JVal → Option ℚ
  | .num q => some q
  | .bool b => some (if b then 1 else 0)
  | .str s => parseFloatStr s
  | .null => none

/-- The ingestion coercion shared by the HTTP and CoAP write paths:
`try: doc[field] = float(value) except (ValueError, TypeError):
doc[field] = value`. -/
def coerceValue (v : JVal) : JVal :=
  match pyFloat v with
  | some q => .num q
  | none => v

/-- A value stored in a document: a JSON scalar or a datetime instant
(the server-stamped `datetime.datetime.now(timezone.utc)`). -/
inductive DVal where
  | js (v : JVal)
  | time (t : ℕ)
deriving DecidableEq, Repr

/-- A Mongo document, modelled as a flat association list in insertion
order — exactly the shape the handlers build as a Python dict. -/
abbrev Doc := List (String × DVal)

/-- Python dict assignment `d[k] = v`: overwrite in place if the key is
present (the first occurrence — documents built by dict operations never
hold a key twice), else append. -/
def Doc.set : Doc → String → DVal → Doc
  | [], k, v => [(k, v)]
  | p :: d, k, v => if p.1 = k then (k, v) :: d else p :: Doc.set d k v

/-- Key lookup in a document. -/
def Doc.get (d : Doc) (k : String) : Option DVal :=
  (d.find? (fun p => p.1 = k)).map (fun p => p.2)

/-- A channel document: `{channel_name, api_key, fields}`. -/
structure Channel where
  channel_name : String
  api_key : String
  fields : List String
deriving DecidableEq, Repr

/-- The persistent state: the `channels` and `data` collections, each in
insertion order. -/
structure DB where
  channels : List Channel
  data : List Doc
deriving DecidableEq, Repr

/-- The service's error taxonomy, as surfaced by the handlers (HTTP
status / CoAP code in comments). -/
inductive ApiError where
  | DuplicateChannel   -- 400 "Channel already exists"
  | ChannelNotFound    -- 404 / CoAP NOT_FOUND
  | InvalidApiKey      -- 401 / CoAP UNAUTHORIZED
  | InvalidField       -- 400 "Field ... is not defined for channel"
  | NoValidFields      -- 400 / CoAP BAD_REQUEST "No valid channel fields"
  | FieldNotFound      -- 404 "Field not found in channel"
  | NoData             -- 404 "No data found" / "Field ... data not found"
  | BadRequest         -- 400/422 adapter-boundary validation failure
deriving DecidableEq, Repr

deriving instance DecidableEq for Except

/-- `db.channels.find_one({"channel_name": name})`. -/
def findChannel (db : DB) (name : String) : Option Channel :=
  db.channels.find? (fun c => c.channel_name = name)

/-- Whether a data document belongs to the channel, i.e. matches the
Mongo filter `{"tank_id": channel_name}`. -/
def tankMatch (name : String) (d : Doc) : Bool :=
  d.get "tank_id" = some (.js (.str name))

/-- Mongo `update_one` on the channels collection: rewrite the first
document matching the name filter. -/
def updateFirstChannel : List Channel → String → (Channel → Channel) → List Channel
  | [], _, _ => []
  | c :: cs, name, f =>
    if c.channel_name = name then f c :: cs else c :: updateFirstChannel cs name f

/-- One iteration of the ingestion loop, written identically in
`write_data`, `update_channel_data_by_query_params` (where every value
is a string) and `ChannelDataResource.render_put`: an in-schema field is
stored coerced and the valid-field flag is raised; an unknown field is
only logged. -/
def ingestStep (fields : List String) (acc : Doc × Bool) (p : String × JVal) : Doc × Bool :=
  if p.1 ∈ fields then (acc.1.set p.1 (.js (coerceValue p.2)), true) else acc

/-- `POST /channels` (`create_channel` in channels.py). The generated
API key and the clock are parameters. -/
def create_channel (db : DB) (channel_name : String) (fields : List String)
    (initial_values : Option (List (String × JVal))) (api_key : String) (now : ℕ) :
    Except ApiError (DB × Channel) :=
  match findChannel db channel_name with
  | some _ => .error .DuplicateChannel
  | none =>
    let channel_doc : Channel := ⟨channel_name, api_key, fields⟩
    let base : Doc := [("tank_id", .js (.str channel_name)), ("timestamp", .time now)]
    let seed : Doc :=
      match initial_values with
      | some iv =>
        -- `if channel.initial_values:` — an empty dict is falsy
        if iv ≠ [] then
          iv.foldl (fun d p => if p.1 ∈ fields then d.set p.1 (.js p.2) else d) base
        else fields.foldl (fun d f => d.set f (.js (.str "N/A"))) base
      | none => fields.foldl (fun d f => d.set f (.js (.str "N/A"))) base
    .ok ({ channels := db.channels ++ [channel_doc], data := db.data ++ [seed] }, channel_doc)

/-- `GET /channels` (`list_channels`): first 100 channels. -/
def list_channels (db : DB) : List (String × List String) :=
  (db.channels.take 100).map (fun c => (c.channel_name, c.fields))

/-- `GET /channels/{name}` (`get_channel`). -/
def get_channel (db : DB) (channel_name api_key : String) : Except ApiError Channel :=
  match findChannel db channel_name with
  | none => .error .ChannelNotFound
  | some channel =>
    if api_key ≠ channel.api_key then .error .InvalidApiKey
    else .ok channel

/-- `POST /channels/{name}/data` (`write_data`): the HTTP JSON-body
write. The bag is the parsed JSON object in key order. -/
def write_data (db : DB) (channel_name api_key : String)
    (data : List (String × JVal)) (now : ℕ) : Except ApiError (DB × Doc) :=
  match findChannel db channel_name with
  | none => .error .ChannelNotFound
  | some channel =>
    if api_key ≠ channel.api_key then .error .InvalidApiKey
    else
      let init : Doc := [("tank_id", .js (.str channel_name)), ("timestamp", .time now)]
      let r := data.foldl (ingestStep channel.fields) (init, false)
      if r.2 then .ok ({ db with data := db.data ++ [r.1] }, r.1)
      else .error .NoValidFields

/-- `GET /channels/{name}/update` (`update_channel_data_by_query_params`):
the query-parameter write. Every raw value is a string, so the
`float(value)` there (which can only raise `ValueError`) coincides with
the general coercion restricted to strings. -/
def update_channel_data_by_query_params (db : DB) (channel_name : String)
    (query_params : List (String × String)) (now : ℕ) : Except ApiError (DB × Doc) :=
  match (query_params.find? (fun p => p.1 = "api_key")).map (fun p => p.2) with
  | none => .error .BadRequest
  | some api_key =>
    if api_key = "" then .error .BadRequest  -- `if not api_key:` also rejects ""
    else
    match findChannel db channel_name with
    | none => .error .ChannelNotFound
    | some channel =>
      if api_key ≠ channel.api_key then .error .InvalidApiKey
      else
        let init : Doc := [("tank_id", .js (.str channel_name)), ("timestamp", .time now)]
        let r := (query_params.filter (fun p => p.1 ≠ "api_key")).foldl
          (fun acc p => ingestStep channel.fields acc (p.1, .str p.2)) (init, false)
        if r.2 then .ok ({ db with data := db.data ++ [r.1] }, r.1)
        else .error .NoValidFields

/-- The sort key of Mongo `sort("timestamp", dir)`, restricted to the
value shapes arising here: BSON type order (missing < null < number <
string < boolean < date) with the instant as tiebreaker for dates. The
intra-type order of the non-date types is irrelevant to every property
below and is not modelled. -/
def tsRank (d : Doc) : ℕ × ℕ :=
  match d.get "timestamp" with
  | none => (0, 0)
  | some (.js .null) => (1, 0)
  | some (.js (.num _)) => (2, 0)
  | some (.js (.str _)) => (3, 0)
  | some (.js (.bool _)) => (4, 0)
  | some (.time t) => (5, t)

/-- Ascending comparison of documents by timestamp sort key. -/
def tsLe (d e : Doc) : Bool :=
  (tsRank d).1 < (tsRank e).1 ||
    ((tsRank d).1 = (tsRank e).1 && (tsRank d).2 ≤ (tsRank e).2)

/-- The Mongo range filter `{"timestamp": {"$gte": ..., "$lte": ...}}`,
built only when at least one bound is supplied; by BSON type bracketing
a bound on a datetime matches only datetime values. -/
def tsInRange (start_time end_time : Option ℕ) (d : Doc) : Bool :=
  match start_time, end_time with
  | none, none => true
  | _, _ =>
    match d.get "timestamp" with
    | some (.time t) =>
      (match start_time with | some st => decide (st ≤ t) | none => true) &&
      (match end_time with | some en => decide (t ≤ en) | none => true)
    | _ => false

/-- An inclusion projection `{"_id": 0, keys...: 1}`: keeps exactly the
projected keys present in the document, in document order. -/
def projectDoc (keys : List String) (d : Doc) : Doc :=
  d.filter (fun p => p.1 ∈ keys)

/-- The projection built by `get_historical_data`: timestamp always,
plus either the one requested field (`InvalidField` when it is not in
the channel's field list) or all current fields. -/
def historyProjection (channel : Channel) (field_name : Option String) :
    Except ApiError (List String) :=
  match field_name with
  | some f =>
    if f ∉ channel.fields then .error .InvalidField else .ok [f]
  | none => .ok channel.fields

/-- `GET /channels/{name}/data` (`get_historical_data`). The `limit`
bound is FastAPI's `ge=1, le=1000` validation, rejected before the
handler runs; the final ISO-8601 stringification of timestamps is
boundary formatting and is not modelled. -/
def get_historical_data (db : DB) (channel_name api_key : String)
    (field_name : Option String) (start_time end_time : Option ℕ) (limit : ℕ) :
    Except ApiError (List Doc) :=
  if limit < 1 || 1000 < limit then .error .BadRequest
  else
  match findChannel db channel_name with
  | none => .error .ChannelNotFound
  | some channel =>
    if api_key ≠ channel.api_key then .error .InvalidApiKey
    else
      match historyProjection channel field_name with
      | .error e => .error e
      | .ok projFields =>
        let matching := db.data.filter (fun d =>
          tankMatch channel_name d && tsInRange start_time end_time d)
        .ok (((matching.mergeSort tsLe).take limit).map
          (projectDoc ("timestamp" :: projFields)))

/-- `DELETE /channels/{name}` (`delete_channel`): `delete_one` on the
channel, `delete_many` on its data. -/
def delete_channel (db : DB) (channel_name api_key : String) : Except ApiError DB :=
  match findChannel db channel_name with
  | none => .error .ChannelNotFound
  | some channel =>
    if api_key ≠ channel.api_key then .error .InvalidApiKey
    else
      .ok { channels := db.channels.eraseP (fun c => c.channel_name = channel_name),
            data := db.data.filter (fun d => !tankMatch channel_name d) }

/-- `DELETE /channels/{name}/fields/{field}` (`delete_field`): requires
the field to be present, `$pull`s every occurrence from the fields
array, and `$set`s the sentinel in every data document of the channel. -/
def delete_field (db : DB) (channel_name field_name api_key : String) :
    Except ApiError DB :=
  match findChannel db channel_name with
  | none => .error .ChannelNotFound
  | some channel =>
    if api_key ≠ channel.api_key then .error .InvalidApiKey
    else if field_name ∉ channel.fields then .error .FieldNotFound
    else
      .ok { channels := updateFirstChannel db.channels channel_name
              (fun c => { c with fields := c.fields.filter (fun f => f ≠ field_name) }),
            data := db.data.map (fun d =>
              if tankMatch channel_name d then d.set field_name (.js (.str "N/A")) else d) }

/-- `PATCH /channels/{name}` (`update_channel_fields`). The Python
`set(...)` exposes only membership and freedom from duplicates, so it is
modelled as a duplicate-free list; the sentinel updates run sequentially,
one `update_many` per removed field, each re-querying `tank_id`. -/
def update_channel_fields (db : DB) (channel_name : String)
    (add_fields remove_fields : List String) (api_key : String) :
    Except ApiError (DB × List String) :=
  match findChannel db channel_name with
  | none => .error .ChannelNotFound
  | some channel =>
    if api_key ≠ channel.api_key then .error .InvalidApiKey
    else
      let current0 := channel.fields.dedup
      let current1 :=
        if add_fields ≠ [] then current0 ++ (add_fields.filter (fun f => f ∉ current0)).dedup
        else current0
      let current2 :=
        if remove_fields ≠ [] then current1.filter (fun f => f ∉ remove_fields)
        else current1
      let newData :=
        if remove_fields ≠ [] then
          remove_fields.foldl (fun ds f =>
            ds.map (fun d =>
              if tankMatch channel_name d then d.set f (.js (.str "N/A")) else d)) db.data
        else db.data
      .ok ({ channels := updateFirstChannel db.channels channel_name
               (fun c => { c with fields := current2 }),
             data := newData }, current2)

/-- `save_mqtt_data` (main.py), the MQTT ingestion invoked for every
message on `tanks/+/data` with the channel name taken from the second
topic segment: no API-key check, a silent skip when the channel is
missing, in-schema filtering with **no** numeric coercion, and an
unconditional insert (`{"_id": uuid4, "tank_id": ..., "timestamp":
utcnow, **cleaned_data}`) even when `cleaned_data` is empty. -/
def save_mqtt_data (db : DB) (channel_name : String) (data : List (String × JVal))
    (uuid : String) (now : ℕ) : DB :=
  match findChannel db channel_name with
  | none => db
  | some channel =>
    let cleaned := data.filter (fun p => p.1 ∈ channel.fields)
    let base : Doc := [("_id", .js (.str uuid)), ("tank_id", .js (.str channel_name)),
      ("timestamp", .time now)]
    let entry := cleaned.foldl (fun d p => d.set p.1 (.js p.2)) base
    { db with data := db.data ++ [entry] }

/-- `find({"tank_id": name}).sort("timestamp", -1).to_list(length=1)`:
the record with the maximal timestamp sort key. -/
def latestRecord (db : DB) (channel_name : String) : Option Doc :=
  ((db.data.filter (tankMatch channel_name)).mergeSort (fun d e => tsLe e d)).head?

/-- `GET /data/{name}/latest` (`get_latest_data` in data.py). -/
def get_latest_data (db : DB) (channel_name api_key : String) : Except ApiError Doc :=
  match findChannel db channel_name with
  | none => .error .ChannelNotFound
  | some channel =>
    if api_key ≠ channel.api_key then .error .InvalidApiKey
    else
      match latestRecord db channel_name with
      | none => .error .NoData
      | some d => .ok d

/-- `GET /data/{name}/latest/{field}` (`get_field_value` in data.py):
returns the field's value from the latest record and that record's
timestamp. -/
def get_field_value (db : DB) (channel_name field_name api_key : String) :
    Except ApiError (DVal × Option DVal) :=
  match findChannel db channel_name with
  | none => .error .ChannelNotFound
  | some channel =>
    if api_key ≠ channel.api_key then .error .InvalidApiKey
    else if field_name ∉ channel.fields then .error .InvalidField
    else
      match latestRecord db channel_name with
      | none => .error .NoData
      | some d =>
        match d.get field_name with
        | none => .error .NoData
        | some v => .ok (v, d.get "timestamp")

/-- Topic handling in `on_message` (main.py): `msg.topic.split('/')`
must have at least two segments and the second is the channel name. -/
def mqttChannelOfTopic (topic : String) : Option String :=
  match topic.splitOn "/" with
  | _ :: channel_name :: _ => some channel_name
  | _ => none

/-- One CoAP `uri_query` token: `if '=' in param` split by
`param.split('=', 1)` (everything before the first `=`, and the rest),
else the bare key with an empty value. -/
def coapQueryPair (s : String) : String × String :=
  if '=' ∈ s.data then
    (⟨s.data.takeWhile (fun c => c ≠ '=')⟩, ⟨(s.data.dropWhile (fun c => c ≠ '=')).tail⟩)
  else (s, "")

/-- `query_params.get(k)` on the dict built from the query tokens; a
repeated key is overwritten by later assignments, so the last
occurrence wins. -/
def coapGetParam (uri_query : List String) (k : String) : Option String :=
  ((uri_query.map coapQueryPair).reverse.find? (fun p => p.1 = k)).map (fun p => p.2)

/-- CoAP `PUT /channels/{name}/data`
(`ChannelDataResource.render_put` in coap_server.py). `payload` is the
decoded JSON object, `none` when the payload is empty or undecodable
(the adapter-boundary `BAD_REQUEST` cases). -/
def render_put (db : DB) (uri_path : List String) (uri_query : List String)
    (payload : Option (List (String × JVal))) (now : ℕ) : Except ApiError (DB × Doc) :=
  match uri_path with
  | _ :: channel_name :: _ =>
    (match coapGetParam uri_query "api_key" with
    | none => .error .BadRequest
    | some api_key =>
      if api_key = "" then .error .BadRequest  -- `if not api_key:`
      else
      match findChannel db channel_name with
      | none => .error .ChannelNotFound
      | some channel =>
        if api_key ≠ channel.api_key then .error .InvalidApiKey
        else
          match payload with
          | none => .error .BadRequest
          | some data_payload =>
            let init : Doc := [("tank_id", .js (.str channel_name)), ("timestamp", .time now)]
            let r := data_payload.foldl (ingestStep channel.fields) (init, false)
            if r.2 then .ok ({ db with data := db.data ++ [r.1] }, r.1)
            else .error .NoValidFields)
  | _ => .error .BadRequest

/-- CoAP `GET /channels/{name}/latest`
(`ChannelLatestDataResource.render_get`). -/
def coap_get_latest (db : DB) (uri_path : List String) (uri_query : List String) :
    Except ApiError Doc :=
  match uri_path with
  | _ :: channel_name :: _ =>
    (match coapGetParam uri_query "api_key" with
    | none => .error .BadRequest
    | some api_key =>
      if api_key = "" then .error .BadRequest
      else
      match findChannel db channel_name with
      | none => .error .ChannelNotFound
      | some channel =>
        if api_key ≠ channel.api_key then .error .InvalidApiKey
        else
          match latestRecord db channel_name with
          | none => .error .NoData
          | some d => .ok d)
  | _ => .error .BadRequest

/-- CoAP `GET /channels/{name}/latest/{field}`
(`ChannelLatestFieldResource.render_get`). -/
def coap_get_latest_field (db : DB) (uri_path : List String) (uri_query : List String) :
    Except ApiError (DVal × Option DVal) :=
  match uri_path with
  | _ :: channel_name :: field_name :: _ =>
    (match coapGetParam uri_query "api_key" with
    | none => .error .BadRequest
    | some api_key =>
      if api_key = "" then .error .BadRequest
      else
      match findChannel db channel_name with
      | none => .error .ChannelNotFound
      | some channel =>
        if api_key ≠ channel.api_key then .error .InvalidApiKey
        else if field_name ∉ channel.fields then .error .InvalidField
        else
          match latestRecord db channel_name with
          | none => .error .NoData
          | some d =>
            match d.get field_name with
            | none => .error .NoData
            | some v => .ok (v, d.get "timestamp"))
  | _ => .error .BadRequest

/-- The handler's declared default for the history limit:
`limit: int = Query(100, ge=1, le=1000)`. -/
def get_historical_data_default (db : DB) (channel_name api_key : String)
    (field_name : Option String) (start_time end_time : Option ℕ) :
    Except ApiError (List Doc) :=
  get_historical_data db channel_name api_key field_name start_time end_time 100

/-- The channel used by the concrete witness instances below (the
shape the simulator scripts create). -/
def tank3 : Channel := ⟨"tank3", "XWHX1ZJA6Q8F", ["level", "status"]⟩

/-- A one-channel database with one seed-like record, used by the
concrete witness instances below. -/
def sampleDB : DB :=
  ⟨[tank3], [[("tank_id", .js (.str "tank3")), ("timestamp", .time 0),
    ("level", .js (.str "N/A")), ("status", .js (.str "N/A"))]]⟩

theorem doc_get_set (d : Doc) (k k' : String) (v : DVal) :
    (Doc.set d k v).get k' = if k' = k then some v else d.get k' := by
  induction d with
  | nil =>
    by_cases h : k' = k
    · simp [Doc.set, Doc.get, List.find?_cons, h]
    · have h2 : ¬ k = k' := fun hh => h hh.symm
      simp [Doc.set, Doc.get, List.find?_cons, h, h2]
  | cons p d ih =>
    by_cases hp : p.1 = k
    · by_cases h : k' = k
      · simp [Doc.set, Doc.get, List.find?_cons, hp, h]
      · have h2 : ¬ k = k' := fun hh => h hh.symm
        have h3 : ¬ p.1 = k' := fun hh => h2 (hp ▸ hh)
        simp [Doc.set, Doc.get, List.find?_cons, hp, h, h2, h3]
    · by_cases hq : p.1 = k'
      · have hkk : ¬ k' = k := fun hh => hp (hh ▸ hq)
        simp [Doc.set, Doc.get, List.find?_cons, hp, hq, hkk]
      · by_cases h : k' = k
        · simpa [Doc.set, Doc.get, List.find?_cons, hp, hq, h] using ih
        · simpa [Doc.set, Doc.get, List.find?_cons, hp, hq, h] using ih

theorem ingestFold_snd (fields : List String) (bag : List (String × JVal))
    (d : Doc) (b : Bool) :
    (bag.foldl (ingestStep fields) (d, b)).2 =
      (b || bag.any (fun p => decide (p.1 ∈ fields))) := by
  induction bag generalizing d b with
  | nil => simp
  | cons p bag ih =>
    by_cases hp : p.1 ∈ fields <;>
      simp [List.foldl_cons, ingestStep, hp, ih]

theorem ingestFold_fst (fields : List String) (bag : List (String × JVal))
    (d : Doc) (b : Bool) :
    (bag.foldl (ingestStep fields) (d, b)).1 =
      bag.foldl
        (fun d p => if p.1 ∈ fields then Doc.set d p.1 (.js (coerceValue p.2)) else d) d := by
  induction bag generalizing d b with
  | nil => rfl
  | cons p bag ih =>
    by_cases hp : p.1 ∈ fields <;>
      simp [List.foldl_cons, ingestStep, hp, ih]

theorem ingestDocFold_get_not_mem (fields : List String) (bag : List (String × JVal))
    (d : Doc) (k : String) (h : ∀ p ∈ bag, p.1 ≠ k) :
    (bag.foldl
      (fun d p => if p.1 ∈ fields then Doc.set d p.1 (.js (coerceValue p.2)) else d) d).get k =
      d.get k := by
  induction bag generalizing d with
  | nil => rfl
  | cons p bag ih =>
    have hk := h p (List.mem_cons_self ..)
    have hrest : ∀ q ∈ bag, q.1 ≠ k := fun q hq => h q (List.mem_cons_of_mem _ hq)
    by_cases hp : p.1 ∈ fields
    · rw [List.foldl_cons, if_pos hp, ih _ hrest, doc_get_set, if_neg (fun hh => hk hh.symm)]
    · rw [List.foldl_cons, if_neg hp, ih _ hrest]

theorem ingestDocFold_get_mem (fields : List String) (bag : List (String × JVal))
    (d : Doc) (f : String) (v : JVal)
    (hnodup : (bag.map Prod.fst).Nodup) (hmem : (f, v) ∈ bag) (hf : f ∈ fields) :
    (bag.foldl
      (fun d p => if p.1 ∈ fields then Doc.set d p.1 (.js (coerceValue p.2)) else d) d).get f =
      some (.js (coerceValue v)) := by
  induction bag generalizing d with
  | nil => cases hmem
  | cons p bag ih =>
    rw [List.map_cons, List.nodup_cons] at hnodup
    rcases List.mem_cons.mp hmem with h1 | h1
    · have hrest : ∀ q ∈ bag, q.1 ≠ f := by
        intro q hq hqf
        apply hnodup.1
        rw [← h1]
        have hmm := List.mem_map_of_mem Prod.fst hq
        rw [hqf] at hmm
        exact hmm
      rw [List.foldl_cons, ← h1, if_pos hf,
        ingestDocFold_get_not_mem _ _ _ _ hrest, doc_get_set, if_pos rfl]
    · rw [List.foldl_cons]
      by_cases hp : p.1 ∈ fields
      · rw [if_pos hp]
        exact ih _ hnodup.2 h1
      · rw [if_neg hp]
        exact ih _ hnodup.2 h1

theorem foldl_get_invariant {α : Type} (step : Doc → α → Doc) (k : String) (l : List α)
    (hstep : ∀ d, ∀ x ∈ l, (step d x).get k = d.get k) (d : Doc) :
    (l.foldl step d).get k = d.get k := by
  induction l generalizing d with
  | nil => rfl
  | cons x l ih =>
    rw [List.foldl_cons, ih (fun d y hy => hstep d y (List.mem_cons_of_mem _ hy))]
    exact hstep d x (List.mem_cons_self ..)

theorem naFill_get_mem (fields : List String) (d : Doc) (f : String) (hf : f ∈ fields) :
    (fields.foldl (fun d g => Doc.set d g (.js (.str "N/A"))) d).get f =
      some (.js (.str "N/A")) := by
  induction fields generalizing d with
  | nil => cases hf
  | cons g fields ih =>
    rw [List.foldl_cons]
    by_cases hgf : f ∈ fields
    · exact ih _ hgf
    · have hfg : f = g := by
        rcases List.mem_cons.mp hf with h | h
        · exact h
        · exact absurd h hgf
      rw [foldl_get_invariant _ f fields
        (fun d x hx => by rw [doc_get_set, if_neg (fun hh => hgf (by rw [hh]; exact hx))]),
        doc_get_set, hfg, if_pos rfl]

theorem ivFold_get_not_mem (fields : List String) (iv : List (String × JVal))
    (d : Doc) (k : String) (h : ∀ p ∈ iv, p.1 ≠ k) :
    (iv.foldl (fun d p => if p.1 ∈ fields then Doc.set d p.1 (.js p.2) else d) d).get k =
      d.get k := by
  apply foldl_get_invariant
  intro d p hp
  by_cases hpf : p.1 ∈ fields
  · rw [if_pos hpf, doc_get_set, if_neg (fun hh => h p hp hh.symm)]
  · rw [if_neg hpf]

theorem mqttFold_get_not_mem (bag : List (String × JVal)) (d : Doc) (k : String)
    (h : ∀ p ∈ bag, p.1 ≠ k) :
    (bag.foldl (fun d p => Doc.set d p.1 (.js p.2)) d).get k = d.get k := by
  apply foldl_get_invariant
  intro d p hp
  rw [doc_get_set, if_neg (fun hh => h p hp hh.symm)]

theorem mqttFold_get_mem (bag : List (String × JVal)) (d : Doc) (f : String) (v : JVal)
    (hnodup : (bag.map Prod.fst).Nodup) (hmem : (f, v) ∈ bag) :
    (bag.foldl (fun d p => Doc.set d p.1 (.js p.2)) d).get f = some (.js v) := by
  induction bag generalizing d with
  | nil => cases hmem
  | cons p bag ih =>
    rw [List.map_cons, List.nodup_cons] at hnodup
    rw [List.foldl_cons]
    rcases List.mem_cons.mp hmem with h1 | h1
    · have hrest : ∀ q ∈ bag, q.1 ≠ f := by
        intro q hq hqf
        apply hnodup.1
        rw [← h1]
        have hmm := List.mem_map_of_mem Prod.fst hq
        rw [hqf] at hmm
        exact hmm
      rw [mqttFold_get_not_mem _ _ _ hrest, ← h1, doc_get_set, if_pos rfl]
    · exact ih _ hnodup.2 h1

theorem tsLe_total (d e : Doc) : (tsLe d e || tsLe e d) = true := by
  simp only [tsLe, Bool.or_eq_true, decide_eq_true_eq, Bool.and_eq_true]
  omega

theorem tsLe_trans (a b c : Doc) (h1 : tsLe a b = true) (h2 : tsLe b c = true) :
    tsLe a c = true := by
  simp only [tsLe, Bool.or_eq_true, decide_eq_true_eq, Bool.and_eq_true] at h1 h2 ⊢
  omega

theorem removeFold_get_not_mem (name : String) (remove : List String) (d : Doc)
    (k : String) (hk : k ∉ remove) :
    (remove.foldl
      (fun d g => if tankMatch name d then Doc.set d g (.js (.str "N/A")) else d) d).get k =
      d.get k := by
  apply foldl_get_invariant
  intro d g hg
  by_cases hm : tankMatch name d
  · rw [if_pos hm, doc_get_set, if_neg (fun hh => hk (by rw [hh]; exact hg))]
  · rw [if_neg hm]

theorem removeFold_get_mem (name : String) (remove : List String) (d : Doc)
    (hmatch : tankMatch name d = true) (htid : "tank_id" ∉ remove)
    (f : String) (hf : f ∈ remove) :
    (remove.foldl
      (fun d g => if tankMatch name d then Doc.set d g (.js (.str "N/A")) else d) d).get f =
      some (.js (.str "N/A")) := by
  induction remove generalizing d with
  | nil => cases hf
  | cons g remove ih =>
    have hgid : g ≠ "tank_id" := fun hh => htid (hh ▸ List.mem_cons_self ..)
    have hrid : "tank_id" ∉ remove := fun hh => htid (List.mem_cons_of_mem _ hh)
    rw [List.foldl_cons, if_pos hmatch]
    have hmatch2 : tankMatch name (Doc.set d g (.js (.str "N/A"))) = true := by
      unfold tankMatch at hmatch ⊢
      rw [doc_get_set, if_neg (fun hh => hgid hh.symm)]
      exact hmatch
    by_cases hfr : f ∈ remove
    · exact ih _ hmatch2 hrid hfr
    · have hfg : f = g := by
        rcases List.mem_cons.mp hf with h | h
        · exact h
        · exact absurd h hfr
      rw [removeFold_get_not_mem name remove _ f hfr, doc_get_set, hfg, if_pos rfl]

theorem foldl_map_comm {α β : Type} (tr : β → α → α) (l : List β) (ds : List α) :
    l.foldl (fun ds f => ds.map (tr f)) ds =
      ds.map (fun d => l.foldl (fun d f => tr f d) d) := by
  induction l generalizing ds with
  | nil => simp
  | cons f l ih =>
    rw [List.foldl_cons, ih, List.map_map]
    rfl


/-- C2: for HTTP JSON-body, HTTP query-parameter and CoAP PUT ingestion,
an in-schema (field, rawValue) pair is stored as the 64-bit float parse
of the raw value when that parse succeeds and as the unchanged raw value
otherwise (`coerceValue`); in particular "75.2" is stored as the number
75.2 and "online" as the same string. -/
theorem C2_inschema_values_coerced
    (db : DB) (channel : Channel) (channel_name : String) (now : ℕ)
    (bag : List (String × JVal)) (f : String) (v : JVal)
    (query_params : List (String × String)) (fq : String) (s : String)
    (p0 : String) (rest uri_query : List String)
    (hch : findChannel db channel_name = some channel)
    (hnodup : (bag.map Prod.fst).Nodup)
    (hmem : (f, v) ∈ bag) (hf : f ∈ channel.fields)
    (hqnodup : (query_params.map Prod.fst).Nodup)
    (hqk : (query_params.find? (fun p => p.1 = "api_key")).map (fun p => p.2) =
      some channel.api_key)
    (hkne : channel.api_key ≠ "")
    (hqmem : (fq, s) ∈ query_params) (hqne : fq ≠ "api_key") (hqf : fq ∈ channel.fields)
    (hcq : coapGetParam uri_query "api_key" = some channel.api_key) :
    (∃ dbJ docJ, write_data db channel_name channel.api_key bag now = .ok (dbJ, docJ) ∧
      docJ.get f = some (.js (coerceValue v))) ∧
    (∃ dbQ docQ, update_channel_data_by_query_params db channel_name query_params now =
        .ok (dbQ, docQ) ∧
      docQ.get fq = some (.js (coerceValue (.str s)))) ∧
    (∃ dbC docC, render_put db (p0 :: channel_name :: rest) uri_query (some bag) now =
        .ok (dbC, docC) ∧
      docC.get f = some (.js (coerceValue v))) ∧
    coerceValue (.str "75.2") = .num (376 / 5) ∧
    coerceValue (.str "online") = .str "online" := by
  have hany : bag.any (fun p => decide (p.1 ∈ channel.fields)) = true :=
    List.any_eq_true.mpr ⟨(f, v), hmem, by simpa using hf⟩
  refine ⟨?_, ?_, ?_, ?_, ?_⟩
  · unfold write_data
    rw [hch]
    simp only [ne_eq, not_true_eq_false, if_false, ite_not]
    rw [ingestFold_snd]
    simp only [Bool.false_or, hany, if_true]
    refine ⟨_, _, rfl, ?_⟩
    rw [ingestFold_fst]
    exact ingestDocFold_get_mem _ _ _ _ _ hnodup hmem hf
  · unfold update_channel_data_by_query_params
    rw [hqk]
    simp only [hkne, if_false]
    rw [hch]
    simp only [ne_eq, not_true_eq_false, if_false, ite_not]
    have hfold : ∀ acc : Doc × Bool,
        (query_params.filter (fun p => p.1 ≠ "api_key")).foldl
          (fun acc p => ingestStep channel.fields acc (p.1, .str p.2)) acc =
        ((query_params.filter (fun p => p.1 ≠ "api_key")).map
          (fun p => (p.1, JVal.str p.2))).foldl (ingestStep channel.fields) acc := by
      intro acc
      rw [List.foldl_map]
    rw [hfold]
    set bagq := (query_params.filter (fun p => p.1 ≠ "api_key")).map
      (fun p => (p.1, JVal.str p.2)) with hbagq
    have hmemq : (fq, JVal.str s) ∈ bagq := by
      rw [hbagq]
      exact List.mem_map_of_mem _ (List.mem_filter.mpr ⟨hqmem, by simpa using hqne⟩)
    have hnodupq : (bagq.map Prod.fst).Nodup := by
      rw [hbagq, List.map_map]
      have : ((query_params.filter (fun p => p.1 ≠ "api_key")).map
          (Prod.fst ∘ fun p => (p.1, JVal.str p.2))) =
          (query_params.filter (fun p => p.1 ≠ "api_key")).map Prod.fst := by
        simp [Function.comp]
      rw [this]
      exact List.Nodup.sublist (List.Sublist.map _ (List.filter_sublist _)) hqnodup
    have hanyq : bagq.any (fun p => decide (p.1 ∈ channel.fields)) = true :=
      List.any_eq_true.mpr ⟨(fq, JVal.str s), hmemq, by simpa using hqf⟩
    rw [ingestFold_snd]
    simp only [Bool.false_or, hanyq, if_true]
    refine ⟨_, _, rfl, ?_⟩
    rw [ingestFold_fst]
    exact ingestDocFold_get_mem _ _ _ _ _ hnodupq hmemq hqf
  · unfold render_put
    rw [hcq]
    simp only [hkne, if_false]
    rw [hch]
    simp only [ne_eq, not_true_eq_false, if_false, ite_not]
    rw [ingestFold_snd]
    simp only [Bool.false_or, hany, if_true]
    refine ⟨_, _, rfl, ?_⟩
    rw [ingestFold_fst]
    exact ingestDocFold_get_mem _ _ _ _ _ hnodup hmem hf
  · simp +decide [coerceValue, pyFloat, parseFloatStr, parseSign, parseExp, trimChars,
      isPySpace, digitsVal]
    norm_num
  · decide

theorem ivFold_get_not_field (fields : List String) (iv : List (String × JVal))
    (d : Doc) (k : String) (hk : k ∉ fields) :
    (iv.foldl (fun d p => if p.1 ∈ fields then Doc.set d p.1 (.js p.2) else d) d).get k =
      d.get k := by
  apply foldl_get_invariant
  intro d p _
  by_cases hpf : p.1 ∈ fields
  · rw [if_pos hpf, doc_get_set, if_neg (fun hh => hk (by rw [hh]; exact hpf))]
  · rw [if_neg hpf]

theorem naFill_get_not_mem (fields : List String) (d : Doc) (k : String)
    (hk : k ∉ fields) :
    (fields.foldl (fun d g => Doc.set d g (.js (.str "N/A"))) d).get k = d.get k := by
  apply foldl_get_invariant
  intro d g hg
  rw [doc_get_set, if_neg (fun hh => hk (by rw [hh]; exact hg))]

theorem projectDoc_get_mem (keys : List String) (d : Doc) (k : String) (hk : k ∈ keys) :
    (projectDoc keys d).get k = d.get k := by
  induction d with
  | nil => rfl
  | cons p d ih =>
    by_cases hp : p.1 ∈ keys
    · by_cases hpk : p.1 = k
      · simp [projectDoc, List.filter_cons, hp, Doc.get, List.find?_cons, hpk, hk]
      · simpa [projectDoc, List.filter_cons, hp, Doc.get, List.find?_cons, hpk] using ih
    · have hpk : ¬ p.1 = k := fun hh => hp (hh ▸ hk)
      simpa [projectDoc, List.filter_cons, hp, Doc.get, List.find?_cons, hpk] using ih

theorem tsRank_project (keys : List String) (d : Doc) :
    tsRank (projectDoc ("timestamp" :: keys) d) = tsRank d := by
  unfold tsRank
  rw [projectDoc_get_mem _ _ _ (List.mem_cons_self ..)]

theorem findChannel_updateFirst (cs : List Channel) (name : String) (g : Channel → Channel)
    (hg : ∀ c, (g c).channel_name = c.channel_name) :
    (updateFirstChannel cs name g).find? (fun c => c.channel_name = name) =
      (cs.find? (fun c => c.channel_name = name)).map g := by
  induction cs with
  | nil => rfl
  | cons c cs ih =>
    by_cases hc : c.channel_name = name
    · simp [updateFirstChannel, hc, List.find?_cons, hg]
    · simp [updateFirstChannel, hc, List.find?_cons, ih]

/-- C2 witness: the coercion theorem applied to a concrete channel and
bags; the string "75.2" for the in-schema field `level` is stored as the
numeric coercion result, which is the number 75.2. -/
theorem C2_inschema_values_coerced_witness :
    (∃ dbJ docJ, write_data sampleDB "tank3" "XWHX1ZJA6Q8F"
        [("level", .str "75.2"), ("bogus", .num 1)] 7 = .ok (dbJ, docJ) ∧
      docJ.get "level" = some (.js (coerceValue (.str "75.2")))) ∧
    coerceValue (.str "75.2") = .num (376 / 5) := by
  have h := C2_inschema_values_coerced sampleDB tank3 "tank3" 7
    [("level", .str "75.2"), ("bogus", .num 1)] "level" (.str "75.2")
    [("api_key", "XWHX1ZJA6Q8F"), ("status", "online")] "status" "online"
    "channels" ["data"] ["api_key=XWHX1ZJA6Q8F"]
    (by decide) (by decide) (by decide) (by decide) (by decide) (by decide)
    (by decide) (by decide) (by decide) (by decide) (by decide)
  exact ⟨h.1, h.2.2.2.1⟩

/-- C1 counterexample: on channel tank3 (fields {level, status}) the
MQTT path is not equivalent-modulo-API-key to the HTTP pipeline: for the
bag {"level": "75.2"} HTTP stores the coerced number 75.2 while MQTT
stores the raw string, and for the bag {"bogus": "1"} (no in-schema
field) HTTP rejects with NoValidFields while MQTT persists a record. -/
theorem C1_mqtt_not_equivalent_counterexample :
    (∃ db' doc, write_data sampleDB "tank3" "XWHX1ZJA6Q8F" [("level", .str "75.2")] 7 =
        .ok (db', doc) ∧ doc.get "level" = some (.js (.num (376 / 5)))) ∧
    ((save_mqtt_data sampleDB "tank3" [("level", .str "75.2")] "u1" 7).data.getLast?.bind
      (fun d => d.get "level")) = some (.js (.str "75.2")) ∧
    JVal.num (376 / 5) ≠ JVal.str "75.2" ∧
    write_data sampleDB "tank3" "XWHX1ZJA6Q8F" [("bogus", .str "1")] 7 =
      .error .NoValidFields ∧
    (save_mqtt_data sampleDB "tank3" [("bogus", .str "1")] "u1" 7).data.length =
      sampleDB.data.length + 1 := by
  refine ⟨⟨_, _, rfl, ?_⟩, ?_, ?_, by decide, by decide⟩
  · simp +decide [sampleDB, tank3, ingestStep, Doc.set, Doc.get, coerceValue, pyFloat,
      parseFloatStr, parseSign, parseExp, trimChars, isPySpace, digitsVal]
    norm_num
  · decide
  · intro hh
    cases hh

/-- C1 amended: the MQTT ingestion shares the channel lookup and the
in-schema filtering with the HTTP/CoAP pipeline but differs beyond the
missing API-key check: it stores in-schema values raw (no numeric
coercion), and it persists a record unconditionally once the channel
exists — also when no field of the bag is in the field set, where the
HTTP pipeline rejects with NoValidFields. -/
theorem C1_mqtt_vs_http_pipeline (db : DB) (channel : Channel)
    (channel_name uuid : String) (now : ℕ)
    (bag bag0 : List (String × JVal)) (f : String) (v : JVal)
    (hch : findChannel db channel_name = some channel)
    (hnodup : (bag.map Prod.fst).Nodup) (hmem : (f, v) ∈ bag) (hf : f ∈ channel.fields)
    (hbag0 : ∀ p ∈ bag0, p.1 ∉ channel.fields) :
    (∃ entry, (save_mqtt_data db channel_name bag uuid now).data = db.data ++ [entry] ∧
      entry.get f = some (.js v)) ∧
    (∃ db' doc, write_data db channel_name channel.api_key bag now = .ok (db', doc) ∧
      doc.get f = some (.js (coerceValue v))) ∧
    (∃ entry0, (save_mqtt_data db channel_name bag0 uuid now).data = db.data ++ [entry0]) ∧
    write_data db channel_name channel.api_key bag0 now = .error .NoValidFields := by
  refine ⟨?_, ?_, ?_, ?_⟩
  · unfold save_mqtt_data
    rw [hch]
    refine ⟨_, rfl, ?_⟩
    have hmemc : (f, v) ∈ bag.filter (fun p => decide (p.1 ∈ channel.fields)) :=
      List.mem_filter.mpr ⟨hmem, by simpa using hf⟩
    have hnodupc : ((bag.filter (fun p => decide (p.1 ∈ channel.fields))).map
        Prod.fst).Nodup :=
      List.Nodup.sublist (List.Sublist.map _ (List.filter_sublist _)) hnodup
    exact mqttFold_get_mem _ _ _ _ hnodupc hmemc
  · have hany : bag.any (fun p => decide (p.1 ∈ channel.fields)) = true :=
      List.any_eq_true.mpr ⟨(f, v), hmem, by simpa using hf⟩
    unfold write_data
    rw [hch]
    simp only [ne_eq, not_true_eq_false, if_false, ite_not]
    rw [ingestFold_snd]
    simp only [Bool.false_or, hany, if_true]
    refine ⟨_, _, rfl, ?_⟩
    rw [ingestFold_fst]
    exact ingestDocFold_get_mem _ _ _ _ _ hnodup hmem hf
  · unfold save_mqtt_data
    rw [hch]
    exact ⟨_, rfl⟩
  · have hany : bag0.any (fun p => decide (p.1 ∈ channel.fields)) = false := by
      rw [List.any_eq_false]
      intro p hp
      simpa using hbag0 p hp
    unfold write_data
    rw [hch]
    simp only [ne_eq, not_true_eq_false, if_false, ite_not]
    rw [ingestFold_snd]
    simp [hany]

/-- C1 witness: the amended MQTT/HTTP comparison applied to tank3 with
bags {"level": "7"} (in-schema) and {"bogus": "1"} (no in-schema
field). -/
theorem C1_mqtt_vs_http_pipeline_witness :
    (∃ entry, (save_mqtt_data sampleDB "tank3" [("level", .str "7")] "u1" 7).data =
        sampleDB.data ++ [entry] ∧ entry.get "level" = some (.js (.str "7"))) ∧
    (∃ db' doc, write_data sampleDB "tank3" "XWHX1ZJA6Q8F" [("level", .str "7")] 7 =
        .ok (db', doc) ∧ doc.get "level" = some (.js (coerceValue (.str "7")))) ∧
    (∃ entry0, (save_mqtt_data sampleDB "tank3" [("bogus", .str "1")] "u1" 7).data =
        sampleDB.data ++ [entry0]) ∧
    write_data sampleDB "tank3" "XWHX1ZJA6Q8F" [("bogus", .str "1")] 7 =
      .error .NoValidFields :=
  C1_mqtt_vs_http_pipeline sampleDB tank3 "tank3" "u1" 7
    [("level", .str "7")] [("bogus", .str "1")] "level" (.str "7")
    (by decide) (by decide) (by decide) (by decide) (by decide)

/-- C3 counterexample: the MQTT ingestion of a bag with no field in the
channel's field set does not fail — it persists a new metadata-only
record, so "every ingestion call ... persists no record" is false. -/
theorem C3_mqtt_persists_on_empty_match :
    (∀ p ∈ [(("bogus" : String), JVal.str "1")], p.1 ∉ tank3.fields) ∧
    (save_mqtt_data sampleDB "tank3" [("bogus", .str "1")] "u3" 9).data.length =
      sampleDB.data.length + 1 := by decide

/-- C3 amended: an HTTP JSON-body, HTTP query-parameter or CoAP PUT
ingestion whose bag has no field in the channel's field set fails with
NoValidFields (and, every handler being state-free on the error path,
persists nothing); the MQTT path instead appends one metadata-only
record. -/
theorem C3_no_valid_fields_rejected (db : DB) (channel : Channel)
    (channel_name uuid p0 : String) (now : ℕ)
    (bag : List (String × JVal)) (query_params : List (String × String))
    (rest uri_query : List String)
    (hch : findChannel db channel_name = some channel)
    (hbag : ∀ p ∈ bag, p.1 ∉ channel.fields)
    (hq : ∀ p ∈ query_params, p.1 ∉ channel.fields)
    (hqk : (query_params.find? (fun p => p.1 = "api_key")).map (fun p => p.2) =
      some channel.api_key)
    (hkne : channel.api_key ≠ "")
    (hcq : coapGetParam uri_query "api_key" = some channel.api_key) :
    write_data db channel_name channel.api_key bag now = .error .NoValidFields ∧
    update_channel_data_by_query_params db channel_name query_params now =
      .error .NoValidFields ∧
    render_put db (p0 :: channel_name :: rest) uri_query (some bag) now =
      .error .NoValidFields ∧
    (save_mqtt_data db channel_name bag uuid now).data = db.data ++
      [[("_id", .js (.str uuid)), ("tank_id", .js (.str channel_name)),
        ("timestamp", .time now)]] := by
  have hany : bag.any (fun p => decide (p.1 ∈ channel.fields)) = false := by
    rw [List.any_eq_false]
    intro p hp
    simpa using hbag p hp
  refine ⟨?_, ?_, ?_, ?_⟩
  · unfold write_data
    rw [hch]
    simp only [ne_eq, not_true_eq_false, if_false, ite_not]
    rw [ingestFold_snd]
    simp [hany]
  · unfold update_channel_data_by_query_params
    rw [hqk]
    simp only [hkne, if_false]
    rw [hch]
    simp only [ne_eq, not_true_eq_false, if_false, ite_not]
    have hfold : ∀ acc : Doc × Bool,
        (query_params.filter (fun p => p.1 ≠ "api_key")).foldl
          (fun acc p => ingestStep channel.fields acc (p.1, .str p.2)) acc =
        ((query_params.filter (fun p => p.1 ≠ "api_key")).map
          (fun p => (p.1, JVal.str p.2))).foldl (ingestStep channel.fields) acc := by
      intro acc
      rw [List.foldl_map]
    rw [hfold, ingestFold_snd]
    have hanyq : (((query_params.filter (fun p => p.1 ≠ "api_key")).map
        (fun p => (p.1, JVal.str p.2))).any
          (fun p => decide (p.1 ∈ channel.fields))) = false := by
      rw [List.any_eq_false]
      intro p hp
      rcases List.mem_map.mp hp with ⟨q, hq1, hq2⟩
      have := hq q (List.mem_filter.mp hq1).1
      rw [← hq2]
      simpa using this
    simp only [hanyq, Bool.false_or, Bool.false_eq_true, if_false]
  · unfold render_put
    rw [hcq]
    simp only [hkne, if_false]
    rw [hch]
    simp only [ne_eq, not_true_eq_false, if_false, ite_not]
    rw [ingestFold_snd]
    simp [hany]
  · unfold save_mqtt_data
    rw [hch]
    have hfil : bag.filter (fun p => decide (p.1 ∈ channel.fields)) = [] := by
      rw [List.filter_eq_nil_iff]
      intro p hp
      simpa using hbag p hp
    simp only [hfil, List.foldl_nil]

/-- C3 witness: the amended rejection theorem applied to tank3 and the
bag {"bogus": "1"}, which has no field in {level, status}. -/
theorem C3_no_valid_fields_rejected_witness :
    write_data sampleDB "tank3" "XWHX1ZJA6Q8F" [("bogus", .str "1")] 11 =
      .error .NoValidFields ∧
    update_channel_data_by_query_params sampleDB "tank3"
      [("api_key", "XWHX1ZJA6Q8F"), ("bogus", "1")] 11 = .error .NoValidFields ∧
    render_put sampleDB ["channels", "tank3", "data"] ["api_key=XWHX1ZJA6Q8F"]
      (some [("bogus", .str "1")]) 11 = .error .NoValidFields ∧
    (save_mqtt_data sampleDB "tank3" [("bogus", .str "1")] "u9" 11).data =
      sampleDB.data ++ [[("_id", .js (.str "u9")), ("tank_id", .js (.str "tank3")),
        ("timestamp", .time 11)]] :=
  C3_no_valid_fields_rejected sampleDB tank3 "tank3" "u9" "channels" 11
    [("bogus", .str "1")] [("api_key", "XWHX1ZJA6Q8F"), ("bogus", "1")]
    ["data"] ["api_key=XWHX1ZJA6Q8F"]
    (by decide) (by decide) (by decide) (by decide) (by decide) (by decide)

theorem ivFold_get_mem (fields : List String) (iv : List (String × JVal)) (d : Doc)
    (f : String) (v : JVal) (hnodup : (iv.map Prod.fst).Nodup)
    (hmem : (f, v) ∈ iv) (hf : f ∈ fields) :
    (iv.foldl (fun d p => if p.1 ∈ fields then Doc.set d p.1 (.js p.2) else d) d).get f =
      some (.js v) := by
  induction iv generalizing d with
  | nil => cases hmem
  | cons p iv ih =>
    rw [List.map_cons, List.nodup_cons] at hnodup
    rw [List.foldl_cons]
    rcases List.mem_cons.mp hmem with h1 | h1
    · have hrest : ∀ q ∈ iv, q.1 ≠ f := by
        intro q hq hqf
        apply hnodup.1
        rw [← h1]
        have hmm := List.mem_map_of_mem Prod.fst hq
        rw [hqf] at hmm
        exact hmm
      rw [ivFold_get_not_mem _ _ _ _ hrest, ← h1]
      have hpf : ((f, v) : String × JVal).1 ∈ fields := hf
      rw [if_pos hpf, doc_get_set, if_pos rfl]
    · by_cases hp : p.1 ∈ fields
      · rw [if_pos hp]
        exact ih _ hnodup.2 h1
      · rw [if_neg hp]
        exact ih _ hnodup.2 h1

/-- C4 counterexample: registering with fields [level, temp] and the
partial initial_values {"level": "5"} yields a seed record in which the
uncovered field "temp" is missing entirely — it is not set to the
sentinel "N/A" as the claim requires. -/
theorem C4_partial_initial_values_not_filled :
    create_channel ⟨[], []⟩ "t4" ["level", "temp"] (some [("level", .str "5")]) "K4" 3 =
      .ok (⟨[⟨"t4", "K4", ["level", "temp"]⟩],
        [[("tank_id", .js (.str "t4")), ("timestamp", .time 3),
          ("level", .js (.str "5"))]]⟩, ⟨"t4", "K4", ["level", "temp"]⟩) ∧
    Doc.get [("tank_id", .js (.str "t4")), ("timestamp", .time 3),
      ("level", .js (.str "5"))] "temp" = none := by decide

/-- C4 amended: a successful registration appends exactly one seed
record; initial-value keys outside the declared fields never appear in
it; when initial_values is absent or empty every declared field is set
to "N/A"; but when a non-empty initial_values is supplied, a declared
field not covered by it is simply absent from the seed record (it is
not filled with the sentinel). -/
theorem C4_seed_record (db : DB) (channel_name api_key : String)
    (fields : List String) (initial_values : Option (List (String × JVal))) (now : ℕ)
    (hch : findChannel db channel_name = none) :
    ∃ seed, create_channel db channel_name fields initial_values api_key now =
        .ok (⟨db.channels ++ [⟨channel_name, api_key, fields⟩], db.data ++ [seed]⟩,
          ⟨channel_name, api_key, fields⟩) ∧
      (∀ k, k ∉ fields → k ≠ "tank_id" → k ≠ "timestamp" → seed.get k = none) ∧
      ((initial_values = none ∨ initial_values = some []) →
        ∀ f ∈ fields, seed.get f = some (.js (.str "N/A"))) ∧
      (∀ iv, initial_values = some iv → ∀ f v, (f, v) ∈ iv → f ∈ fields →
        (iv.map Prod.fst).Nodup → seed.get f = some (.js v)) ∧
      (∀ iv, initial_values = some iv → iv ≠ [] →
        ∀ f ∈ fields, (∀ p ∈ iv, p.1 ≠ f) → f ≠ "tank_id" → f ≠ "timestamp" →
          seed.get f = none) := by
  have hbase : ∀ k, k ≠ "tank_id" → k ≠ "timestamp" →
      Doc.get [("tank_id", DVal.js (.str channel_name)), ("timestamp", DVal.time now)] k =
        none := by
    intro k h1 h2
    have h1s : ¬ "tank_id" = k := fun hh => h1 hh.symm
    have h2s : ¬ "timestamp" = k := fun hh => h2 hh.symm
    simp [Doc.get, List.find?_cons, h1s, h2s]
  unfold create_channel
  rw [hch]
  refine ⟨_, rfl, ?_, ?_, ?_, ?_⟩
  · intro k hk h1 h2
    match initial_values with
    | none => rw [naFill_get_not_mem _ _ _ hk, hbase k h1 h2]
    | some iv =>
      by_cases hiv : iv = []
      · simp only [hiv, ne_eq, not_true_eq_false, if_false]
        rw [naFill_get_not_mem _ _ _ hk, hbase k h1 h2]
      · simp only [ne_eq, hiv, not_false_eq_true, if_true]
        rw [ivFold_get_not_field _ _ _ _ hk, hbase k h1 h2]
  · intro hiv f hf
    rcases hiv with h | h
    · rw [h]
      exact naFill_get_mem _ _ _ hf
    · rw [h]
      simp only [ne_eq, not_true_eq_false, if_false]
      exact naFill_get_mem _ _ _ hf
  · intro iv hiv f v hmem hf hnodup
    rw [hiv]
    have hne : iv ≠ [] := by
      intro hh
      rw [hh] at hmem
      cases hmem
    simp only [ne_eq, hne, not_false_eq_true, if_true]
    exact ivFold_get_mem _ _ _ _ _ hnodup hmem hf
  · intro iv hiv hne f _ hnot h1 h2
    rw [hiv]
    simp only [ne_eq, hne, not_false_eq_true, if_true]
    rw [ivFold_get_not_mem _ _ _ _ hnot, hbase f h1 h2]

/-- C4 witness: registration on an empty registry with fields
[level, status] and no initial values; the seed record carries "N/A"
for both declared fields, and an arbitrary other key is absent. -/
theorem C4_seed_record_witness :
    ∃ seed, create_channel ⟨[], []⟩ "t4w" ["level", "status"] none "K4W" 5 =
        .ok (⟨[⟨"t4w", "K4W", ["level", "status"]⟩], [seed]⟩,
          ⟨"t4w", "K4W", ["level", "status"]⟩) ∧
      seed.get "level" = some (.js (.str "N/A")) ∧
      seed.get "status" = some (.js (.str "N/A")) ∧
      seed.get "other" = none := by
  obtain ⟨seed, h1, h2, h3, _, _⟩ :=
    C4_seed_record ⟨[], []⟩ "t4w" "K4W" ["level", "status"] none 5 (by decide)
  refine ⟨seed, h1, ?_, ?_, ?_⟩
  · exact h3 (Or.inl rfl) "level" (by decide)
  · exact h3 (Or.inl rfl) "status" (by decide)
  · exact h2 "other" (by decide) (by decide) (by decide)

/-- C5: the failing input for the timestamp invariant. On a channel
whose field set contains the name "timestamp", the write loop's dict
assignment `data_doc[field] = value` lands on the metadata key, so the
persisted record's timestamp is the client-supplied (coerced) value and
not the server instant. -/
theorem C5_client_bag_overwrites_timestamp :
    write_data ⟨[⟨"t5", "K5", ["timestamp"]⟩], []⟩ "t5" "K5"
        [("timestamp", .str "hacked")] 7 =
      .ok (⟨[⟨"t5", "K5", ["timestamp"]⟩],
        [[("tank_id", .js (.str "t5")), ("timestamp", .js (.str "hacked"))]]⟩,
        [("tank_id", .js (.str "t5")), ("timestamp", .js (.str "hacked"))]) ∧
    Doc.get [("tank_id", .js (.str "t5")), ("timestamp", .js (.str "hacked"))]
      "timestamp" = some (.js (.str "hacked")) ∧
    some (DVal.js (.str "hacked")) ≠ some (DVal.time 7) ∧
    (save_mqtt_data ⟨[⟨"t5", "K5", ["timestamp"]⟩], []⟩ "t5"
      [("timestamp", .str "hacked")] "u5" 7).data =
      [[("_id", .js (.str "u5")), ("tank_id", .js (.str "t5")),
        ("timestamp", .js (.str "hacked"))]] := by decide

/-- C6 counterexample: removing a field that is absent from the channel
via the DELETE field endpoint does not succeed — `delete_field` fails
with FieldNotFound (404), against the claim's "removing a field already
absent succeeds". -/
theorem C6_delete_absent_field_fails :
    ("ghost" ∉ tank3.fields) ∧
    delete_field sampleDB "tank3" "ghost" "XWHX1ZJA6Q8F" = .error .FieldNotFound := by
  decide

/-- C6 amended: removal via PATCH remove_fields is an idempotent set
difference (removing an absent field succeeds and leaves the field set
unchanged) and sets the field to "N/A" (key present) in every record of
the channel; removal via the DELETE field endpoint performs the same
removal and sentinel write for a present field but fails with
FieldNotFound when the field is absent. -/
theorem C6_remove_field (db : DB) (channel : Channel) (channel_name f : String)
    (hch : findChannel db channel_name = some channel) :
    (∃ db' fields', update_channel_fields db channel_name [] [f] channel.api_key =
        .ok (db', fields') ∧
      f ∉ fields' ∧
      (∀ g, g ∈ fields' ↔ (g ∈ channel.fields ∧ g ≠ f)) ∧
      db'.data = db.data.map (fun d =>
        if tankMatch channel_name d then Doc.set d f (.js (.str "N/A")) else d) ∧
      (∀ i : Fin db.data.length, tankMatch channel_name (db.data.get i) = true →
        ∃ hj : i.1 < db'.data.length,
          (db'.data.get ⟨i.1, hj⟩).get f = some (.js (.str "N/A")))) ∧
    (f ∈ channel.fields →
      ∃ db2, delete_field db channel_name f channel.api_key = .ok db2 ∧
        findChannel db2 channel_name =
          some ⟨channel.channel_name, channel.api_key,
            channel.fields.filter (fun g => g ≠ f)⟩ ∧
        f ∉ channel.fields.filter (fun g => g ≠ f) ∧
        db2.data = db.data.map (fun d =>
          if tankMatch channel_name d then Doc.set d f (.js (.str "N/A")) else d)) ∧
    (f ∉ channel.fields →
      delete_field db channel_name f channel.api_key = .error .FieldNotFound) := by
  refine ⟨?_, ?_, ?_⟩
  · unfold update_channel_fields
    rw [hch]
    simp only [ne_eq, not_true_eq_false, if_false, ite_not, List.cons_ne_self,
      reduceCtorEq, if_true, List.foldl_cons, List.foldl_nil]
    refine ⟨_, _, rfl, ?_, ?_, rfl, ?_⟩
    · intro hmem
      have := (List.mem_filter.mp hmem).2
      simp at this
    · intro g
      constructor
      · intro hmem
        rcases List.mem_filter.mp hmem with ⟨h1, h2⟩
        refine ⟨List.mem_dedup.mp h1, ?_⟩
        simpa using h2
      · intro ⟨h1, h2⟩
        exact List.mem_filter.mpr ⟨List.mem_dedup.mpr h1, by simpa using h2⟩
    · intro i hmatch
      refine ⟨by simpa using i.2, ?_⟩
      rw [List.get_map]
      simp only [hmatch, if_true]
      rw [doc_get_set, if_pos rfl]
  · intro hf
    unfold delete_field
    rw [hch]
    simp only [ne_eq, not_true_eq_false, if_false, ite_not, hf, not_true_eq_false]
    refine ⟨_, rfl, ?_, ?_, rfl⟩
    · unfold findChannel
      dsimp only
      rw [findChannel_updateFirst db.channels channel_name
        (fun c => ⟨c.channel_name, c.api_key, c.fields.filter (fun g => g ≠ f)⟩)
        (fun c => rfl)]
      unfold findChannel at hch
      rw [hch]
      rfl
    · intro hmem
      have := (List.mem_filter.mp hmem).2
      simp at this
  · intro hf
    unfold delete_field
    rw [hch]
    simp only [ne_eq, not_true_eq_false, if_false, ite_not, hf, not_false_eq_true, if_true]

/-- C6 witness: removing the present field "status" from tank3 via
PATCH; the field leaves the schema and the one existing record gets the
sentinel. -/
theorem C6_remove_field_witness :
    ∃ db' fields', update_channel_fields sampleDB "tank3" [] ["status"] "XWHX1ZJA6Q8F" =
        .ok (db', fields') ∧
      "status" ∉ fields' ∧
      (∀ g, g ∈ fields' ↔ (g ∈ tank3.fields ∧ g ≠ "status")) ∧
      db'.data = sampleDB.data.map (fun d =>
        if tankMatch "tank3" d then Doc.set d "status" (.js (.str "N/A")) else d) ∧
      (∀ i : Fin sampleDB.data.length, tankMatch "tank3" (sampleDB.data.get i) = true →
        ∃ hj : i.1 < db'.data.length,
          (db'.data.get ⟨i.1, hj⟩).get "status" = some (.js (.str "N/A"))) :=
  (C6_remove_field sampleDB tank3 "tank3" "status" (by decide)).1

/-- C7 counterexample: registration stores the submitted field list
verbatim, so registering with fields ["a", "a"] creates a channel whose
fields list contains a duplicate. -/
theorem C7_registration_keeps_duplicates :
    ∃ db' ch, create_channel ⟨[], []⟩ "t7" ["a", "a"] none "K7" 0 = .ok (db', ch) ∧
      ¬ ch.fields.Nodup ∧ db'.channels = [⟨"t7", "K7", ["a", "a"]⟩] := by
  refine ⟨_, _, rfl, ?_, rfl⟩
  decide

/-- The field list produced by a PATCH update (`set` union then
difference) is duplicate-free. -/
theorem fieldsNodupAux (fields add remove : List String) :
    (if remove = [] then
      (if add = [] then fields.dedup
       else fields.dedup ++ (add.filter (fun f => f ∉ fields.dedup)).dedup)
     else
      (if add = [] then fields.dedup
       else fields.dedup ++ (add.filter (fun f => f ∉ fields.dedup)).dedup).filter
        (fun f => f ∉ remove)).Nodup := by
  have h1 : (if add = [] then fields.dedup
      else fields.dedup ++ (add.filter (fun f => f ∉ fields.dedup)).dedup).Nodup := by
    split
    · exact List.nodup_dedup _
    · refine List.Nodup.append (List.nodup_dedup _) (List.nodup_dedup _) ?_
      intro a ha1 ha2
      have h2 := (List.mem_filter.mp (List.mem_dedup.mp ha2)).2
      simp at h2
      exact h2 (List.mem_dedup.mp ha1)
  split
  · exact h1
  · exact List.Nodup.filter _ h1

/-- C7 amended: registration copies the submitted fields list verbatim
(so it is duplicate-free exactly when the submitted list is); every
successful PATCH field update produces a duplicate-free fields list for
the channel (the handler passes the list through a set); and the DELETE
field endpoint preserves freedom from duplicates. -/
theorem C7_fields_nodup (db : DB) (channel : Channel) (channel_name api_key : String)
    (add remove : List String) (db' : DB) (fields' : List String)
    (hch : findChannel db channel_name = some channel)
    (h : update_channel_fields db channel_name add remove api_key = .ok (db', fields')) :
    fields'.Nodup ∧
    findChannel db' channel_name = some ⟨channel.channel_name, channel.api_key, fields'⟩ ∧
    (∀ flds db0 db2 ch0 name key iv now, (flds : List String).Nodup →
      create_channel db0 name flds iv key now = .ok (db2, ch0) → ch0.fields.Nodup) ∧
    (∀ f db2, channel.fields.Nodup → f ∈ channel.fields →
      delete_field db channel_name f channel.api_key = .ok db2 →
      findChannel db2 channel_name =
        some ⟨channel.channel_name, channel.api_key,
          channel.fields.filter (fun g => g ≠ f)⟩ ∧
      (channel.fields.filter (fun g => g ≠ f)).Nodup) := by
  unfold update_channel_fields at h
  rw [hch] at h
  by_cases hkey : api_key = channel.api_key
  · simp only [hkey, ne_eq, not_true_eq_false, if_false, ite_not] at h
    rw [Except.ok.injEq, Prod.mk.injEq] at h
    obtain ⟨hdb, hfl⟩ := h
    subst hdb
    subst hfl
    refine ⟨?_, ?_, ?_, ?_⟩
    · exact fieldsNodupAux channel.fields add remove
    · unfold findChannel
      dsimp only
      rw [findChannel_updateFirst db.channels channel_name]
      · unfold findChannel at hch
        rw [hch]
        rfl
      · exact fun c => rfl
    · intro flds db0 db2 ch0 name key iv now hnodup hcreate
      unfold create_channel at hcreate
      cases hfind : findChannel db0 name with
      | some c =>
        rw [hfind] at hcreate
        cases hcreate
      | none =>
        rw [hfind] at hcreate
        rw [Except.ok.injEq, Prod.mk.injEq] at hcreate
        obtain ⟨_, hc⟩ := hcreate
        rw [← hc]
        exact hnodup
    · intro f db2 hnd hf hdel
      unfold delete_field at hdel
      rw [hch] at hdel
      simp only [ne_eq, not_true_eq_false, if_false, ite_not, hf,
        not_true_eq_false] at hdel
      rw [Except.ok.injEq] at hdel
      subst hdel
      refine ⟨?_, List.Nodup.filter _ hnd⟩
      unfold findChannel
      dsimp only
      rw [findChannel_updateFirst db.channels channel_name
        (fun c => ⟨c.channel_name, c.api_key, c.fields.filter (fun g => g ≠ f)⟩)
        (fun c => rfl)]
      unfold findChannel at hch
      rw [hch]
      rfl
  · simp only [ne_eq, hkey, not_false_eq_true, if_true, ite_not, if_false] at h
    cases h

/-- C7 witness: a PATCH adding {temp, level} and removing {status} on
tank3 yields the duplicate-free fields list [level, temp], stored on the
channel. -/
theorem C7_fields_nodup_witness :
    (["level", "temp"] : List String).Nodup ∧
    findChannel ⟨[⟨"tank3", "XWHX1ZJA6Q8F", ["level", "temp"]⟩],
        [[("tank_id", .js (.str "tank3")), ("timestamp", .time 0),
          ("level", .js (.str "N/A")), ("status", .js (.str "N/A"))]]⟩ "tank3" =
      some ⟨"tank3", "XWHX1ZJA6Q8F", ["level", "temp"]⟩ := by
  have h := C7_fields_nodup sampleDB tank3 "tank3" "XWHX1ZJA6Q8F" ["temp", "level"]
    ["status"]
    ⟨[⟨"tank3", "XWHX1ZJA6Q8F", ["level", "temp"]⟩],
      [[("tank_id", .js (.str "tank3")), ("timestamp", .time 0),
        ("level", .js (.str "N/A")), ("status", .js (.str "N/A"))]]⟩
    ["level", "temp"] (by decide) (by decide)
  exact ⟨h.1, h.2.1⟩

/-- C8: on every authorized operation — channel detail, both HTTP write
forms, history, channel delete, field delete, field update, latest,
latest-field, and the CoAP data put / latest / latest-field — a supplied
(non-empty) api_key different from the channel's stored key makes the
operation fail with InvalidApiKey, whatever the requested field or data;
every mutating handler returns only the error, so no state change
occurs. -/
theorem C8_invalid_api_key_rejected (db : DB) (channel : Channel)
    (channel_name api_key p0 fsome : String) (now limit : ℕ)
    (bag : List (String × JVal)) (fopt : Option String) (st en : Option ℕ)
    (query_params : List (String × String)) (rest uri_query : List String)
    (payload : Option (List (String × JVal)))
    (add remove : List String)
    (hch : findChannel db channel_name = some channel)
    (hne : api_key ≠ channel.api_key) (hne2 : api_key ≠ "")
    (hqk : (query_params.find? (fun p => p.1 = "api_key")).map (fun p => p.2) =
      some api_key)
    (hcq : coapGetParam uri_query "api_key" = some api_key)
    (hlim : 1 ≤ limit ∧ limit ≤ 1000) :
    get_channel db channel_name api_key = .error .InvalidApiKey ∧
    write_data db channel_name api_key bag now = .error .InvalidApiKey ∧
    update_channel_data_by_query_params db channel_name query_params now =
      .error .InvalidApiKey ∧
    get_historical_data db channel_name api_key fopt st en limit =
      .error .InvalidApiKey ∧
    delete_channel db channel_name api_key = .error .InvalidApiKey ∧
    delete_field db channel_name fsome api_key = .error .InvalidApiKey ∧
    update_channel_fields db channel_name add remove api_key = .error .InvalidApiKey ∧
    get_latest_data db channel_name api_key = .error .InvalidApiKey ∧
    get_field_value db channel_name fsome api_key = .error .InvalidApiKey ∧
    render_put db (p0 :: channel_name :: rest) uri_query payload now =
      .error .InvalidApiKey ∧
    coap_get_latest db (p0 :: channel_name :: rest) uri_query =
      .error .InvalidApiKey ∧
    coap_get_latest_field db (p0 :: channel_name :: fsome :: rest) uri_query =
      .error .InvalidApiKey := by
  have hlim2 : ¬ (limit < 1 || 1000 < limit) = true := by
    simp only [Bool.or_eq_true, decide_eq_true_eq, not_or]
    omega
  refine ⟨?_, ?_, ?_, ?_, ?_, ?_, ?_, ?_, ?_, ?_, ?_, ?_⟩
  · unfold get_channel
    rw [hch]
    simp [hne]
  · unfold write_data
    rw [hch]
    simp [hne]
  · unfold update_channel_data_by_query_params
    rw [hqk]
    simp only [hne2, if_false]
    rw [hch]
    simp [hne]
  · unfold get_historical_data
    rw [if_neg hlim2, hch]
    simp [hne]
  · unfold delete_channel
    rw [hch]
    simp [hne]
  · unfold delete_field
    rw [hch]
    simp [hne]
  · unfold update_channel_fields
    rw [hch]
    simp [hne]
  · unfold get_latest_data
    rw [hch]
    simp [hne]
  · unfold get_field_value
    rw [hch]
    simp [hne]
  · unfold render_put
    rw [hcq]
    simp only [hne2, if_false]
    rw [hch]
    simp [hne]
  · unfold coap_get_latest
    rw [hcq]
    simp only [hne2, if_false]
    rw [hch]
    simp [hne]
  · unfold coap_get_latest_field
    rw [hcq]
    simp only [hne2, if_false]
    rw [hch]
    simp [hne]

/-- C8 witness: a wrong key "WRONG" against tank3 is rejected with
InvalidApiKey by every authorized operation. -/
theorem C8_invalid_api_key_rejected_witness :
    get_channel sampleDB "tank3" "WRONG" = .error .InvalidApiKey ∧
    write_data sampleDB "tank3" "WRONG" [("level", .str "1")] 7 =
      .error .InvalidApiKey ∧
    update_channel_data_by_query_params sampleDB "tank3"
      [("api_key", "WRONG"), ("level", "1")] 7 = .error .InvalidApiKey ∧
    get_historical_data sampleDB "tank3" "WRONG" none none none 100 =
      .error .InvalidApiKey ∧
    delete_channel sampleDB "tank3" "WRONG" = .error .InvalidApiKey ∧
    delete_field sampleDB "tank3" "level" "WRONG" = .error .InvalidApiKey ∧
    update_channel_fields sampleDB "tank3" [] ["level"] "WRONG" =
      .error .InvalidApiKey ∧
    get_latest_data sampleDB "tank3" "WRONG" = .error .InvalidApiKey ∧
    get_field_value sampleDB "tank3" "level" "WRONG" = .error .InvalidApiKey ∧
    render_put sampleDB ["channels", "tank3", "data"] ["api_key=WRONG"]
      (some [("level", .str "1")]) 7 = .error .InvalidApiKey ∧
    coap_get_latest sampleDB ["channels", "tank3", "data"] ["api_key=WRONG"] =
      .error .InvalidApiKey ∧
    coap_get_latest_field sampleDB ["channels", "tank3", "level", "x"]
      ["api_key=WRONG"] = .error .InvalidApiKey :=
  C8_invalid_api_key_rejected sampleDB tank3 "tank3" "WRONG" "channels" "level" 7 100
    [("level", .str "1")] none none none [("api_key", "WRONG"), ("level", "1")]
    ["data"] ["api_key=WRONG"] (some [("level", .str "1")]) [] ["level"]
    (by decide) (by decide) (by decide) (by decide) (by decide) (by decide)


/-- The shared filter/sort/truncate/project shape of a successful
history query. -/
theorem historyCore (db : DB) (channel_name : String) (st en : Option ℕ) (limit : ℕ)
    (projFields : List String) (out : List Doc)
    (hout : Except.ok (((((db.data.filter (fun d => tankMatch channel_name d &&
          tsInRange st en d)).mergeSort tsLe).take limit)).map
        (projectDoc ("timestamp" :: projFields))) = (Except.ok out : Except ApiError (List Doc))) :
    out.length ≤ limit ∧
    (∀ d ∈ out, ∃ r ∈ db.data, tankMatch channel_name r = true ∧
      tsInRange st en r = true ∧ d = projectDoc ("timestamp" :: projFields) r) ∧
    (∀ d ∈ out, ∀ t, d.get "timestamp" = some (.time t) →
      (∀ s0, st = some s0 → s0 ≤ t) ∧ (∀ e0, en = some e0 → t ≤ e0)) ∧
    List.Pairwise (fun a b => tsLe a b = true) out := by
  rw [Except.ok.injEq] at hout
  set matching := db.data.filter (fun d =>
    tankMatch channel_name d && tsInRange st en d) with hmatching
  have hsorted : List.Pairwise (fun a b => tsLe a b = true) (matching.mergeSort tsLe) :=
    @List.sorted_mergeSort _ tsLe
      (fun a b c h1 h2 => tsLe_trans a b c h1 h2)
      (fun a b => tsLe_total a b) matching
  refine ⟨?_, ?_, ?_, ?_⟩
  · rw [← hout, List.length_map, List.length_take]
    exact Nat.min_le_left _ _
  · intro d hd
    rw [← hout] at hd
    rcases List.mem_map.mp hd with ⟨r, hr, hrd⟩
    have hr2 : r ∈ matching.mergeSort tsLe :=
      List.Sublist.mem hr (List.take_sublist _ _)
    have hr3 : r ∈ matching := ((List.mergeSort_perm matching tsLe).mem_iff).mp hr2
    rw [hmatching] at hr3
    rcases List.mem_filter.mp hr3 with ⟨hr4, hr5⟩
    rw [Bool.and_eq_true] at hr5
    exact ⟨r, hr4, hr5.1, hr5.2, hrd.symm⟩
  · intro d hd t ht
    rw [← hout] at hd
    rcases List.mem_map.mp hd with ⟨r, hr, hrd⟩
    have hr2 : r ∈ matching.mergeSort tsLe :=
      List.Sublist.mem hr (List.take_sublist _ _)
    have hr3 : r ∈ matching := ((List.mergeSort_perm matching tsLe).mem_iff).mp hr2
    rw [hmatching] at hr3
    rcases List.mem_filter.mp hr3 with ⟨_, hr5⟩
    rw [Bool.and_eq_true] at hr5
    have hget : r.get "timestamp" = some (.time t) := by
      rw [← projectDoc_get_mem ("timestamp" :: projFields) r "timestamp"
        (List.mem_cons_self ..), hrd, ht]
    have hrange := hr5.2
    unfold tsInRange at hrange
    constructor
    · intro s0 hs0
      rw [hs0] at hrange
      rw [hget] at hrange
      simp only [Bool.and_eq_true, decide_eq_true_eq] at hrange
      exact hrange.1
    · intro e0 he0
      rw [he0] at hrange
      match st with
      | none =>
        rw [hget] at hrange
        simp only [Bool.and_eq_true, decide_eq_true_eq] at hrange
        exact hrange.2
      | some s1 =>
        rw [hget] at hrange
        simp only [Bool.and_eq_true, decide_eq_true_eq] at hrange
        exact hrange.2
  · rw [← hout, List.pairwise_map]
    have hp1 : List.Pairwise (fun a b => tsLe a b = true)
        ((matching.mergeSort tsLe).take limit) :=
      List.Pairwise.sublist (List.take_sublist _ _) hsorted
    refine hp1.imp ?_
    intro a b hab
    have ha := tsRank_project projFields a
    have hb := tsRank_project projFields b
    unfold tsLe at hab ⊢
    rw [ha, hb]
    exact hab

/-- C9: a history query returns only (projections of) records of the
named channel whose timestamp lies in the inclusive supplied range,
ascending by timestamp sort key, at most `limit` of them; `limit`
defaults to 100 and values outside [1, 1000] are rejected; a supplied
field_name outside the current field set fails with InvalidField, and
each returned record is the projection to the timestamp plus either the
single requested field or all current fields. -/
theorem C9_history_query (db : DB) (channel : Channel) (channel_name : String)
    (field_name : Option String) (st en : Option ℕ) (limit : ℕ)
    (hch : findChannel db channel_name = some channel) :
    (get_historical_data_default db channel_name channel.api_key field_name st en =
      get_historical_data db channel_name channel.api_key field_name st en 100) ∧
    ((limit < 1 ∨ 1000 < limit) →
      get_historical_data db channel_name channel.api_key field_name st en limit =
        .error .BadRequest) ∧
    (∀ f, field_name = some f → f ∉ channel.fields → 1 ≤ limit → limit ≤ 1000 →
      get_historical_data db channel_name channel.api_key field_name st en limit =
        .error .InvalidField) ∧
    (∀ out, get_historical_data db channel_name channel.api_key field_name st en limit =
        .ok out →
      out.length ≤ limit ∧
      (∀ d ∈ out, ∃ r ∈ db.data, tankMatch channel_name r = true ∧
        tsInRange st en r = true ∧
        d = projectDoc ("timestamp" :: (match field_name with
          | some f => [f] | none => channel.fields)) r) ∧
      (∀ d ∈ out, ∀ t, d.get "timestamp" = some (.time t) →
        (∀ s0, st = some s0 → s0 ≤ t) ∧ (∀ e0, en = some e0 → t ≤ e0)) ∧
      List.Pairwise (fun a b => tsLe a b = true) out) := by
  refine ⟨rfl, ?_, ?_, ?_⟩
  · intro hbad
    unfold get_historical_data
    rw [if_pos (by simp only [Bool.or_eq_true, decide_eq_true_eq]; omega)]
  · intro f hf hnot h1 h2
    unfold get_historical_data
    rw [if_neg (by simp only [Bool.or_eq_true, decide_eq_true_eq, not_or]; omega), hch]
    simp only [ne_eq, not_true_eq_false, if_false, ite_not]
    have hhp : historyProjection channel field_name = .error .InvalidField := by
      unfold historyProjection
      rw [hf]
      exact if_pos hnot
    rw [hhp]
  · intro out hout
    unfold get_historical_data at hout
    by_cases hlim : (limit < 1 || 1000 < limit) = true
    · rw [if_pos hlim] at hout
      cases hout
    · rw [if_neg hlim, hch] at hout
      simp only [ne_eq, not_true_eq_false, if_false, ite_not] at hout
      cases field_name with
      | none =>
        rw [show historyProjection channel none = .ok channel.fields from rfl] at hout
        exact historyCore db channel_name st en limit channel.fields out hout
      | some f =>
        by_cases hfc : f ∈ channel.fields
        · rw [show historyProjection channel (some f) =
              (if f ∉ channel.fields then .error ApiError.InvalidField else .ok [f])
            from rfl, if_neg (not_not_intro hfc)] at hout
          exact historyCore db channel_name st en limit [f] out hout
        · rw [show historyProjection channel (some f) =
              (if f ∉ channel.fields then .error ApiError.InvalidField else .ok [f])
            from rfl, if_pos hfc] at hout
          cases hout

/-- C9 witness: on tank3 (one stored record) the unknown field "ghost"
is rejected with InvalidField, the out-of-bounds limit 0 is rejected,
and the successful no-filter query returns the single record projected
to timestamp plus the current fields, within the limit and sorted. -/
theorem C9_history_query_witness :
    get_historical_data sampleDB "tank3" "XWHX1ZJA6Q8F" (some "ghost") none none 100 =
      .error .InvalidField ∧
    get_historical_data sampleDB "tank3" "XWHX1ZJA6Q8F" none none none 0 =
      .error .BadRequest ∧
    ([[("timestamp", DVal.time 0), ("level", DVal.js (.str "N/A")),
        ("status", DVal.js (.str "N/A"))]] : List Doc).length ≤ 100 ∧
    List.Pairwise (fun a b => tsLe a b = true)
      [[("timestamp", DVal.time 0), ("level", DVal.js (.str "N/A")),
        ("status", DVal.js (.str "N/A"))]] := by
  have h1 := C9_history_query sampleDB tank3 "tank3" (some "ghost") none none 100
    (by decide)
  have h2 := C9_history_query sampleDB tank3 "tank3" (some "ghost") none none 0
    (by decide)
  have h3 := C9_history_query sampleDB tank3 "tank3" none none none 100 (by decide)
  have hout : get_historical_data sampleDB "tank3" "XWHX1ZJA6Q8F" none none none 100 =
      .ok [[("timestamp", DVal.time 0), ("level", DVal.js (.str "N/A")),
        ("status", DVal.js (.str "N/A"))]] := by
    unfold get_historical_data
    rw [if_neg (by decide), show findChannel sampleDB "tank3" = some tank3 from by decide]
    dsimp only
    rw [if_neg (show ¬ ("XWHX1ZJA6Q8F" ≠ tank3.api_key) from by decide),
      show historyProjection tank3 none = .ok tank3.fields from rfl]
    rw [show sampleDB.data.filter (fun d => tankMatch "tank3" d &&
        tsInRange none none d) = sampleDB.data from by decide]
    rw [show sampleDB.data = [[("tank_id", DVal.js (.str "tank3")), ("timestamp", .time 0),
      ("level", DVal.js (.str "N/A")), ("status", DVal.js (.str "N/A"))]] from rfl]
    rw [List.mergeSort_singleton]
    decide
  have h4 := h3.2.2.2 _ hout
  exact ⟨h1.2.2.1 "ghost" rfl (by decide) (by decide) (by decide),
    h2.2.1 (Or.inl (by decide)), h4.1, h4.2.2.2⟩

/-- C10 counterexample: the sentinel updates run one `update_many` per
removed field, re-querying `tank_id` each time, so a remove list whose
earlier entry is the reserved key "tank_id" first overwrites the
records' channel back-reference and makes them invisible to the later
updates: after removing ["tank_id", "ghost"], the channel's record has
no "ghost" key at all. -/
theorem C10_tank_id_shadows_later_removes :
    ∃ db' fields', update_channel_fields sampleDB "tank3" [] ["tank_id", "ghost"]
        "XWHX1ZJA6Q8F" = .ok (db', fields') ∧
      (db'.data.head?.bind (fun d => d.get "ghost")) = none ∧
      (db'.data.head?.bind (fun d => d.get "tank_id")) =
        some (.js (.str "N/A")) := by
  refine ⟨_, _, rfl, by decide, by decide⟩

/-- C10 amended: for every PATCH with a non-empty remove_fields list not
containing the reserved key "tank_id", every name in the list —
including names never in the channel's field set — is written as a key
with value "N/A" into every existing DataRecord of the channel; a list
containing "tank_id" instead severs the remaining records from the
channel for the updates that follow that entry. -/
theorem C10_remove_fields_writes_sentinel (db : DB) (channel : Channel)
    (channel_name : String) (add remove : List String) (db' : DB)
    (fields' : List String)
    (hch : findChannel db channel_name = some channel)
    (htid : "tank_id" ∉ remove)
    (h : update_channel_fields db channel_name add remove channel.api_key =
      .ok (db', fields')) :
    ∀ f ∈ remove, ∀ i : Fin db.data.length,
      tankMatch channel_name (db.data.get i) = true →
      ∃ hj : i.1 < db'.data.length,
        (db'.data.get ⟨i.1, hj⟩).get f = some (.js (.str "N/A")) := by
  intro f hf i hmatch
  have hne : remove ≠ [] := by
    intro hh
    rw [hh] at hf
    cases hf
  unfold update_channel_fields at h
  rw [hch] at h
  simp only [ne_eq, not_true_eq_false, if_false, ite_not, hne] at h
  rw [Except.ok.injEq, Prod.mk.injEq] at h
  obtain ⟨hdb, _⟩ := h
  subst hdb
  have hdata : (remove.foldl (fun ds g =>
      ds.map (fun d =>
        if tankMatch channel_name d then Doc.set d g (.js (.str "N/A")) else d)) db.data) =
      db.data.map (fun d => remove.foldl (fun d g =>
        if tankMatch channel_name d then Doc.set d g (.js (.str "N/A")) else d) d) :=
    foldl_map_comm _ remove db.data
  rw [hdata]
  refine ⟨by simpa using i.2, ?_⟩
  rw [List.get_eq_getElem, List.getElem_map]
  exact removeFold_get_mem channel_name remove _ hmatch htid f hf

/-- C10 witness: removing the never-declared field "ghost" from tank3
writes a "ghost" ↦ "N/A" key into the channel's one existing record. -/
theorem C10_remove_fields_writes_sentinel_witness :
    ("ghost" ∉ tank3.fields) ∧
    ((DB.mk [⟨"tank3", "XWHX1ZJA6Q8F", ["level", "status"]⟩]
        [[("tank_id", .js (.str "tank3")), ("timestamp", .time 0),
          ("level", .js (.str "N/A")), ("status", .js (.str "N/A")),
          ("ghost", .js (.str "N/A"))]]).data.head?.bind
      (fun d => d.get "ghost")) = some (.js (.str "N/A")) := by
  have h := C10_remove_fields_writes_sentinel sampleDB tank3 "tank3" [] ["ghost"]
    (DB.mk [⟨"tank3", "XWHX1ZJA6Q8F", ["level", "status"]⟩]
      [[("tank_id", .js (.str "tank3")), ("timestamp", .time 0),
        ("level", .js (.str "N/A")), ("status", .js (.str "N/A")),
        ("ghost", .js (.str "N/A"))]])
    ["level", "status"] (by decide) (by decide) (by decide)
    "ghost" (by decide) ⟨0, by decide⟩ (by decide)
  obtain ⟨hj, hget⟩ := h
  exact ⟨by decide, hget⟩
